import Mathlib

/-!
Verification of the gotestmd linking/suite-assembly engine against its
specification.  The Go sources `cmd/gotestmd/gotestmd.go` and
`internal/generator/test.go` (with the generator's suite rendering) are
shallowly embedded below: pure Go functions become Lean functions, the
two in-place mutations of the model (`Suite.String` appending a placeholder
test, `Test.BashString` appending a `cd` command to the test's Run body)
become explicit state passing, and file writes become an accumulated list
of `(path, content)` pairs.  `filepath.Abs` depends on the ambient working
directory, so it is threaded through as an explicit parameter
`abs : String → String`.  Regular-expression matching (`regexp.MatchString`)
is external library code and is abstracted as a predicate `String → Bool`.
-/

/-- The `generator.Test` record: `Dir`, `Name`, `Cleanup` and `Run` bodies
(ordered command lists). -/
structure Test where
  dir : String
  name : String
  cleanup : List String
  run : List String
deriving DecidableEq, Repr

/-- Modelled from the spec: a `Dependency` (named fixture) carries its name,
its field-declaration text, its import requirement and its initialization
statement.  The `Dependency`/`Dependencies` Go source is not under `src/`;
only its use sites in `Suite.String` are. -/
structure Dep where
  name : String
  declaration : String
  importStr : String
  initStatement : String
deriving DecidableEq, Repr

mutual
/-- The `generator.Suite` record, field for field in source order:
`Dir`, `Location`, the embedded `Dependency` (represented by the resolved
suite name that `Suite.Name()` returns — the derivation of the name is not
under `src/`; the spec says it is the directory name sanitized to an
identifier), `Cleanup`, `Run`, `Tests`, `Children`, `Parents`, `Deps`,
`DepsToSetup`.  `Children`/`Parents` are `[]*Suite` in Go; they are nested
suite lists here, so the recursive walks below are structural. -/
inductive Suite where
  | mk (dir location name : String) (cleanup run : List String)
       (tests : List Test) (children parents : SuiteList)
       (deps depsToSetup : List Dep) : Suite

/-- A list of suites, used for the recursive `Children`/`Parents` fields. -/
inductive SuiteList where
  | nil : SuiteList
  | cons (s : Suite) (rest : SuiteList) : SuiteList
end

def Suite.dir : Suite → String
  | .mk d _ _ _ _ _ _ _ _ _ => d

def Suite.location : Suite → String
  | .mk _ l _ _ _ _ _ _ _ _ => l

def Suite.name : Suite → String
  | .mk _ _ n _ _ _ _ _ _ _ => n

def Suite.cleanup : Suite → List String
  | .mk _ _ _ c _ _ _ _ _ _ => c

def Suite.run : Suite → List String
  | .mk _ _ _ _ r _ _ _ _ _ => r

def Suite.tests : Suite → List Test
  | .mk _ _ _ _ _ t _ _ _ _ => t

def Suite.children : Suite → SuiteList
  | .mk _ _ _ _ _ _ ch _ _ _ => ch

def Suite.parents : Suite → SuiteList
  | .mk _ _ _ _ _ _ _ p _ _ => p

def Suite.deps : Suite → List Dep
  | .mk _ _ _ _ _ _ _ _ dp _ => dp

def Suite.depsToSetup : Suite → List Dep
  | .mk _ _ _ _ _ _ _ _ _ dts => dts

/-- Replace the `Tests` field (the one field the Go code mutates). -/
def Suite.setTests : Suite → List Test → Suite
  | .mk d l n c r _ ch p dp dts, ts => .mk d l n c r ts ch p dp dts

/-- Membership in a `SuiteList`. -/
def SuiteList.Memb (c : Suite) : SuiteList → Prop
  | .nil => False
  | .cons x rest => c = x ∨ SuiteList.Memb c rest

/-! ### String helpers

Go's `strings`/`path` standard-library operations used by the generator,
re-implemented over character lists so that they evaluate inside the
kernel.  `strings.Split` on a one-character separator, `strings.TrimSpace`
(ASCII whitespace) and `path.Split` are faithful; `strings.Title` follows
Go's implementation (a rune is capitalized when the previous rune is a
separator, where ASCII alphanumerics and `_` are not separators). -/

/-- Split a character list at every occurrence of `c` (Go `strings.Split`
with a one-character separator). -/
def splitChar (c : Char) : List Char → List (List Char)
  | [] => [[]]
  | x :: rest =>
    match splitChar c rest with
    | [] => [[]]
    | g :: gs => if x = c then [] :: g :: gs else (x :: g) :: gs

/-- Go `strings.Split (s, sep)` for a one-character separator. -/
def strSplit (c : Char) (s : String) : List String :=
  (splitChar c s.data).map (fun l => ⟨l⟩)

/-- The file part of Go `path.Split`: everything after the last `/`. -/
def pathLastSegment (s : String) : String :=
  ⟨(splitChar '/' s.data).getLastD []⟩

/-- Drop leading and trailing whitespace from a character list. -/
def trimChars (l : List Char) : List Char :=
  ((l.dropWhile Char.isWhitespace).reverse.dropWhile Char.isWhitespace).reverse

/-- Go `strings.TrimSpace`. -/
def strTrim (s : String) : String := ⟨trimChars s.data⟩

/-- Emit a pending whitespace run: a run containing a newline collapses to a
single newline, any other run is kept verbatim (the run is accumulated in
reverse). -/
def wsFlush (pend : List Char) : List Char :=
  if pend.contains '\n' then ['\n'] else pend.reverse

/-- Modelled from the spec: worker for `spaceRegex.ReplaceAllString(_, "\n")`.
The `spaceRegex` definition is not under `src/`; the spec describes it as
whitespace normalization of the rendered text, so every maximal whitespace
run containing a newline is replaced by one newline. -/
def collapseAux : List Char → List Char → List Char
  | pend, [] => wsFlush pend
  | pend, c :: rest =>
    if c.isWhitespace then collapseAux (c :: pend) rest
    else wsFlush pend ++ c :: collapseAux [] rest

/-- Modelled from the spec: `spaceRegex.ReplaceAllString(s, "\n")`, the
whitespace normalization applied to every rendered artifact. -/
def spaceNormalize (s : String) : String := ⟨collapseAux [] s.data⟩

/-- ASCII `unicode.ToTitle`: uppercase a lowercase letter. -/
def asciiToTitle (c : Char) : Char :=
  if 'a' ≤ c ∧ c ≤ 'z' then c.toUpper else c

/-- Go `strings.isSeparator`, restricted to ASCII (directory names in the
claims are ASCII): alphanumerics and `_` are not separators, everything
else is. -/
def goIsSeparator (c : Char) : Bool :=
  !(('0' ≤ c ∧ c ≤ '9') ∨ ('a' ≤ c ∧ c ≤ 'z') ∨ ('A' ≤ c ∧ c ≤ 'Z') ∨ c = '_')

/-- Worker for `goTitle`, tracking the previous (original) character. -/
def goTitleAux (prev : Char) : List Char → List Char
  | [] => []
  | c :: rest => (if goIsSeparator prev then asciiToTitle c else c) :: goTitleAux c rest

/-- Go `strings.Title`: capitalize each character that follows a separator
(the scan starts as if after a space). -/
def goTitle (s : String) : String := ⟨goTitleAux ' ' s.data⟩

/-- A Go identifier character: ASCII letter, digit or underscore. -/
def isIdentChar (c : Char) : Bool :=
  ('a' ≤ c ∧ c ≤ 'z') ∨ ('A' ≤ c ∧ c ≤ 'Z') ∨ ('0' ≤ c ∧ c ≤ '9') ∨ c = '_'

/-- Modelled from the spec: `nameRegex.ReplaceAllString(s, "_")`.  The
`nameRegex` definition is not under `src/`; the spec says non-identifier
characters are folded to `_`. -/
def nameSanitize (s : String) : String :=
  ⟨s.data.map (fun c => if isIdentChar c then c else '_')⟩

/-- Concatenate a list of strings in order (a `strings.Builder` loop). -/
def strConcat : List String → String
  | [] => ""
  | x :: rest => x ++ strConcat rest

/-- `pat` occurs as a contiguous substring of `s`. -/
abbrev StrContains (s pat : String) : Prop := pat.data <:+: s.data

/-! ### Body rendering (`generator.Body`) -/

/-- `generator.Body`: an ordered sequence of command strings. -/
abbrev Body := List String

/-- The backtick-quoted, `+"\n"+`-joined rendering of one block's lines,
as produced by the loop in `Body.String`. -/
def backtickJoin : List String → String
  | [] => ""
  | [l] => "\x60" ++ l ++ "\x60"
  | l :: rest => "\x60" ++ l ++ "\x60" ++ "+\"\\n\"+" ++ backtickJoin rest

/-- `Body.String`: each block becomes one `r.Run(...)` statement; an empty
body renders as the empty string. -/
def Body.string (b : Body) : String :=
  if b.isEmpty then ""
  else strConcat (b.map (fun block => "r.Run(" ++ backtickJoin (strSplit '\n' block) ++ ")\n"))

/-- Modelled from the spec: `Body.BashString` (not under `src/`) renders the
ordered command list for the shell-script format; the command sequence is
emitted verbatim in order, one command per line.  The boolean argument's
effect is not visible from `src/` and is ignored. -/
def Body.bashString (b : Body) (_needCheck : Bool) : String :=
  String.intercalate "\n" b

/-! ### Dependencies rendering -/

/-- Modelled from the spec: `Dependencies.String` (not under `src/`) renders
the import statements of the visible fixtures, in insertion order. -/
def depsImportsString (l : List Dep) : String :=
  String.intercalate "\n" (l.map (fun d => d.importStr))

/-- Modelled from the spec: `Dependencies.FieldsString` (not under `src/`)
renders the suite-level field declarations, in insertion order. -/
def depsFieldsString (l : List Dep) : String :=
  String.intercalate "\n" (l.map (fun d => d.declaration))

/-- Modelled from the spec: `Dependencies.SetupString` (not under `src/`)
renders the setup-call statements, in insertion order. -/
def depsSetupString (l : List Dep) : String :=
  String.intercalate "\n" (l.map (fun d => d.initStatement))

/-! ### Test rendering (`generator/test.go`) -/

/-- The `emptyTest` template constant. -/
def emptyTestStr : String := "func (s *Suite) Test() \x7b\x7d"

/-- The `s.T().Cleanup(...)` wrapper that `Suite.String` and `Test.String`
both apply to a non-empty rendered cleanup body. -/
def wrapCleanup (c : String) : String :=
  if c.length > 0 then "\ts.T().Cleanup(func() \x7b\n\t\t" ++ c ++ "\n\t\x7d)" else c

/-- `Test.String`: the compiled-format rendering of one test.  A test whose
`Cleanup` and `Run` bodies are both empty renders as the `emptyTest`
template, which mentions neither the name nor the directory; otherwise the
`testTemplate` is filled in. -/
def Test.renderGo (t : Test) : String :=
  if t.cleanup.length + t.run.length = 0 then emptyTestStr
  else
    "\nfunc (s *Suite) Test" ++ t.name ++ "() \x7b\n\tr := s.Runner(\"" ++ t.dir ++
    "\")\n\t" ++ wrapCleanup (Body.string t.cleanup) ++ "\n\t" ++ Body.string t.run ++ "\n\x7d\n"

/-- `Test.BashString`: the shell-script rendering of one test.  The Go code
first mutates the receiver — `t.Run = append(t.Run, "cd "+absDir)` — and
then fills the `bashTestTemplate`; the mutation is returned as the second
component. -/
def Test.bashRender (abs : String → String) (t : Test) : String × Test :=
  let absDir := abs t.dir
  let run := t.run ++ ["cd " ++ absDir]
  ("\ntest" ++ t.name ++ "() \x7b\n" ++ Body.bashString run true ++ "\n" ++
     Body.bashString t.cleanup false ++ "\x7d",
   Test.mk t.dir t.name t.cleanup run)

/-! ### Child-suite invocation block (`Suite.generateChildrenTesting`) -/

/-- The nested-invocation title of a child suite: the final segment of its
directory, non-identifier characters folded to `_`, then `strings.Title`. -/
def childTitle (dir : String) : String :=
  goTitle (nameSanitize (pathLastSegment dir))

/-- One iteration of the `includedSuiteTemplate` range body, filled with a
child's title and name. -/
def includedBlock (title sname : String) : String :=
  "\n\t\t" ++ ("s.Run(\"" ++ title ++ "\"") ++
  ", func() \x7b\n\t\t\tsuite.Run(s.T(), &s." ++ sname ++ "Suite)\n\t\t\x7d)\n\t"

/-- The concatenated range-body iterations, one per child in order. -/
def SuiteList.childBlocks : SuiteList → String
  | .nil => ""
  | .cons c rest => includedBlock (childTitle c.dir) c.name ++ SuiteList.childBlocks rest

/-- `Suite.generateChildrenTesting`: empty for a childless suite, otherwise
the `includedSuiteTemplate` rendered over the children. -/
def Suite.generateChildrenTesting (s : Suite) : String :=
  match s.children with
  | .nil => ""
  | .cons c rest => "\n\t" ++ SuiteList.childBlocks (.cons c rest) ++ "\n"

/-! ### Suite rendering -/

/-- The `suiteTemplate` of `Suite.String`, filled in: package clause, imports,
field declarations, `SetupSuite` with dependency setup, the scoped runner
(emitted only when the suite has a run or cleanup body, per the template's
`or .Run .Cleanup` guard), deferred cleanup, run body, and — when the suite
has children — the `RunIncludedSuites` block. -/
def Suite.suiteTemplateRender (s : Suite) : String :=
  let run := Body.string s.run
  let cleanup := wrapCleanup (Body.string s.cleanup)
  let tis := Suite.generateChildrenTesting s
  "// Code generated by gotestmd DO NOT EDIT.\npackage " ++ s.name ++
  "\n\nimport(\n\t" ++ depsImportsString s.deps ++
  "\n)\n\ntype Suite struct \x7b\n\t" ++ depsFieldsString s.deps ++
  "\n\x7d\n\nfunc (s *Suite) SetupSuite() \x7b\n\t" ++ depsSetupString s.depsToSetup ++
  "\n\t" ++ (bif run.data.isEmpty && cleanup.data.isEmpty then ""
             else "\n\tr := s.Runner(\"" ++ s.dir ++ "\")\n\t") ++
  "\n\t" ++ cleanup ++ "\n\t" ++ run ++ "\n\n" ++
  (bif tis.data.isEmpty then ""
   else "\n\ts.RunIncludedSuites()\n\x7d\n\nfunc (s *Suite) RunIncludedSuites() \x7b\n\t" ++
        tis ++ "\n") ++
  "\x7d\n"

/-- `Suite.String`: renders the template, then — mutating the receiver — adds
one fresh empty `Test` when the suite has none, appends each test's
rendering, and normalizes whitespace.  The mutated suite is the second
component. -/
def Suite.render (s : Suite) : String × Suite :=
  let templ := Suite.suiteTemplateRender s
  let tests := bif s.tests.isEmpty then [Test.mk "" "" [] []] else s.tests
  (spaceNormalize (strTrim (templ ++ strConcat (tests.map Test.renderGo))),
   s.setTests tests)

/-- `getCompleteSetup` lifted to a suite list: for each suite in order, the
parents' complete setups (root-first), then `cd <abs dir>`, then the
suite's own run commands. -/
def SuiteList.setups (abs : String → String) : SuiteList → List String
  | .nil => []
  | .cons (.mk d _ _ _ r _ _ parents _ _) rest =>
      (SuiteList.setups abs parents ++ ("cd " ++ abs d) :: r) ++ SuiteList.setups abs rest

/-- `Suite.getCompleteSetup`. -/
def Suite.getCompleteSetup (abs : String → String) (s : Suite) : List String :=
  SuiteList.setups abs (.cons s .nil)

/-- `getCompleteCleanup` lifted to a suite list: for each suite in order, its
own cleanup commands first, then the parents' complete cleanups. -/
def SuiteList.cleanups : SuiteList → List String
  | .nil => []
  | .cons (.mk _ _ _ c _ _ _ parents _ _) rest =>
      (c ++ SuiteList.cleanups parents) ++ SuiteList.cleanups rest

/-- `Suite.getCompleteCleanup`. -/
def Suite.getCompleteCleanup (s : Suite) : List String :=
  SuiteList.cleanups (.cons s .nil)

/-- `Suite.BashString`: the `bashSuiteTemplate` filled with the flattened
setup and cleanup command lists, then whitespace-normalized. -/
def Suite.bashString (abs : String → String) (s : Suite) : String :=
  spaceNormalize (strTrim
    ("\nfunction setup() \x7b\n\t" ++
     String.intercalate "\n" (Suite.getCompleteSetup abs s) ++
     "\n\x7d\n\nfunction cleanup() \x7b\n\t" ++
     String.intercalate "\n" (Suite.getCompleteCleanup s) ++
     "\n\x7d\nsetup()\ncleanup()\n"))

/-! ### The command run (`cmd/gotestmd/gotestmd.go`)

File writes are modelled as an accumulated `(location, content)` list and
are assumed to succeed (a write failure aborts the Go run with an error
attributed to the suite; no claim below depends on that path). -/

/-- `processGoSuites`: writes every suite's compiled rendering at its
location. -/
def processGoSuites (suites : List Suite) : List (String × String) :=
  suites.map (fun s => (s.location, (Suite.render s).1))

/-- `processBashSuites`.  First pass: every suite whose name matches has its
`Tests` field set to `nil` and its shell rendering written.  Second pass,
over the now-mutated suites: every suite with at least one matching test
has `Tests` restricted to the matching subset and its shell rendering
written.  If neither pass matched anything, the no-matches error is
returned. -/
def processBashSuites (abs : String → String) (pattern : String)
    (matchName : String → Bool) (suites : List Suite) :
    List (String × String) × Option String :=
  let found1 := suites.any (fun s => matchName s.name)
  let writes1 := suites.filterMap (fun s =>
    bif matchName s.name then some (s.location, Suite.bashString abs (s.setTests [])) else none)
  let suites1 := suites.map (fun s => bif matchName s.name then s.setTests [] else s)
  let found2 := suites1.any (fun s => s.tests.any (fun t => matchName t.name))
  let writes2 := suites1.filterMap (fun s =>
    let mt := s.tests.filter (fun t => matchName t.name)
    bif mt.isEmpty then none
    else some (s.location, Suite.bashString abs (s.setTests mt)))
  (writes1 ++ writes2,
   bif found1 || found2 then none
   else some ("No matches found for pattern: " ++ pattern))

/-- The `RunE` closure of `gotestmd.New`: reject `--bash` without `--match`;
parse and link (the parser, linker and `generator.Generate` live outside
`src/` and are abstracted as arguments); on a link error abort with
`cannot build examples`; otherwise generate the suites and dispatch on the
`--bash` flag, compiling the match pattern first (`regexp.Compile` is
external and abstracted). -/
def runCommand {α β : Type} (abs : String → String) (bash : Bool) (matchFlag : String)
    (examples : List α)
    (link : List α → Except String (List β))
    (generate : List β → List Suite)
    (compileRe : String → Except String (String → Bool)) :
    List (String × String) × Option String :=
  bif bash && matchFlag == "" then
    ([], some "Flag --bash can be used only with flag --match")
  else
    match link examples with
    | .error e => ([], some ("cannot build examples: " ++ e))
    | .ok linked =>
      let suites := generate linked
      bif !bash then (processGoSuites suites, none)
      else
        match compileRe matchFlag with
        | .error e => ([], some e)
        | .ok matchName => processBashSuites abs matchFlag matchName suites

/-! ### Helper lemmas -/

theorem suite_setTests_self (s : Suite) : s.setTests s.tests = s := by
  cases s
  rfl

theorem strContains_append_left {pat s : String} (t : String)
    (h : StrContains s pat) : StrContains (s ++ t) pat := by
  obtain ⟨u, v, huv⟩ := h
  exact ⟨u, v ++ t.data, by rw [String.data_append, ← huv]; simp⟩

theorem strContains_append_right {pat t : String} (s : String)
    (h : StrContains t pat) : StrContains (s ++ t) pat := by
  obtain ⟨u, v, huv⟩ := h
  exact ⟨s.data ++ u, v, by rw [String.data_append, ← huv]; simp⟩

theorem strContains_sandwich (x p y : String) : StrContains (x ++ p ++ y) p :=
  ⟨x.data, y.data, by simp [String.data_append]⟩

/-- Claim C10: a test whose `Run` and `Cleanup` bodies are both empty renders,
in the compiled format, as the nameless placeholder `func (s *Suite) Test() {}`
whatever its declared `Name` and `Dir` are — the name is lost. -/
theorem empty_test_renders_nameless (dir name : String) :
    Test.renderGo (Test.mk dir name [] []) = "func (s *Suite) Test() \x7b\x7d" := rfl

/-- A root → mid → leaf suite chain (each suite's `Parents` holds the next
suite up), used to state the flattened-ordering claims. -/
def chain3 (rd md ld rn mn ln : String) (rc rr mc mr lc lr : List String)
    (rt mt lt : List Test) : Suite :=
  Suite.mk ld "" ln lc lr lt .nil
    (.cons (Suite.mk md "" mn mc mr mt .nil
      (.cons (Suite.mk rd "" rn rc rr rt .nil .nil [] []) .nil) [] []) .nil) [] []

/-- Claim C3: for a chain root → mid → leaf, the leaf's flattened shell
`setup` is root's complete setup (its directory change then its run
commands), then mid's, then the leaf's own directory change and run
commands — ancestors root-first, a directory change, then this suite's own
Run commands. -/
theorem setup_chain_root_first (abs : String → String)
    (rd md ld rn mn ln : String) (rc rr mc mr lc lr : List String)
    (rt mt lt : List Test) :
    Suite.getCompleteSetup abs (chain3 rd md ld rn mn ln rc rr mc mr lc lr rt mt lt) =
      ((("cd " ++ abs rd) :: rr) ++ (("cd " ++ abs md) :: mr)) ++
        (("cd " ++ abs ld) :: lr) := by
  simp [chain3, Suite.getCompleteSetup, SuiteList.setups]

/-- Claim C2 (amended): for a chain root → mid → leaf, the flattened shell
`cleanup` concatenates this suite's own cleanup commands first and then each
ancestor's, leaf-to-root — the reverse of the `setup` procedure's root-first
order, not the same order. -/
theorem cleanup_chain_leaf_to_root (abs : String → String)
    (rd md ld rn mn ln : String) (rc rr mc mr lc lr : List String)
    (rt mt lt : List Test) :
    Suite.getCompleteCleanup (chain3 rd md ld rn mn ln rc rr mc mr lc lr rt mt lt) =
      lc ++ (mc ++ rc) ∧
    Suite.getCompleteSetup abs (chain3 rd md ld rn mn ln rc rr mc mr lc lr rt mt lt) =
      ((("cd " ++ abs rd) :: rr) ++ (("cd " ++ abs md) :: mr)) ++
        (("cd " ++ abs ld) :: lr) := by
  constructor
  · simp [chain3, Suite.getCompleteCleanup, SuiteList.cleanups]
  · simp [chain3, Suite.getCompleteSetup, SuiteList.setups]

/-- Claim C2 (counterexample): a leaf with one ancestor emits its own cleanup
before the ancestor's, so the cleanup order is not the root-first setup
order the claim states. -/
theorem cleanup_order_counterexample :
    Suite.getCompleteCleanup
      (Suite.mk "l" "" "leaf" ["echo leafclean"] [] [] .nil
        (.cons (Suite.mk "r" "" "root" ["echo rootclean"] [] [] .nil .nil [] []) .nil)
        [] []) = ["echo leafclean", "echo rootclean"] ∧
    Suite.getCompleteCleanup
      (Suite.mk "l" "" "leaf" ["echo leafclean"] [] [] .nil
        (.cons (Suite.mk "r" "" "root" ["echo rootclean"] [] [] .nil .nil [] []) .nil)
        [] []) ≠ ["echo rootclean", "echo leafclean"] := by
  decide

theorem childBlocks_contains : ∀ (l : SuiteList) (c : Suite),
    SuiteList.Memb c l →
    StrContains (SuiteList.childBlocks l) ("s.Run(\"" ++ childTitle c.dir ++ "\"")
  | .nil, _, h => absurd h (by simp [SuiteList.Memb])
  | .cons x rest, c, h => by
    cases h with
    | inl he =>
      subst he
      show StrContains (includedBlock (childTitle c.dir) c.name ++ SuiteList.childBlocks rest) _
      apply strContains_append_left
      unfold includedBlock
      apply strContains_append_left
      apply strContains_append_left
      apply strContains_append_left
      exact strContains_append_right _ List.infix_rfl
    | inr hm =>
      exact strContains_append_right _ (childBlocks_contains rest c hm)

/-- Claim C6: a child suite whose directory's final segment is
`my-example_case` gets the nested-invocation title `My_example_case`
(non-identifier characters folded to `_`, first character capitalized), and
that title appears verbatim in the parent's child-invocation block. -/
theorem child_title_derivation (s c : Suite)
    (hmem : SuiteList.Memb c s.children)
    (hdir : pathLastSegment c.dir = "my-example_case") :
    childTitle c.dir = "My_example_case" ∧
    StrContains (Suite.generateChildrenTesting s) "s.Run(\"My_example_case\"" := by
  have ht : childTitle c.dir = "My_example_case" := by
    unfold childTitle
    rw [hdir]
    decide
  refine ⟨ht, ?_⟩
  rcases hch : s.children with _ | ⟨x, rest⟩
  · rw [hch] at hmem
    exact absurd hmem (by simp [SuiteList.Memb])
  · have hb := childBlocks_contains (SuiteList.cons x rest) c (by rw [← hch]; exact hmem)
    rw [ht] at hb
    have heq : ("s.Run(\"" ++ "My_example_case" ++ "\"" : String) =
        "s.Run(\"My_example_case\"" := by decide
    rw [heq] at hb
    simp only [Suite.generateChildrenTesting, hch]
    exact strContains_append_left _ (strContains_append_right _ hb)

def c6child : Suite :=
  Suite.mk "examples/my-example_case" "" "MyExampleCase" [] [] [] .nil .nil [] []

def c6parent : Suite :=
  Suite.mk "examples" "" "examples" [] [] [] (.cons c6child .nil) .nil [] []

theorem child_title_derivation_witness :
    SuiteList.Memb c6child c6parent.children ∧
    pathLastSegment c6child.dir = "my-example_case" ∧
    (childTitle c6child.dir = "My_example_case" ∧
     StrContains (Suite.generateChildrenTesting c6parent) "s.Run(\"My_example_case\"") :=
  ⟨Or.inl rfl, rfl, child_title_derivation c6parent c6child (Or.inl rfl) rfl⟩

/-- Claim C4 (amended): requesting script mode (`--bash`) with an empty
`--match` pattern fails immediately with the flag error; nothing is rendered
or written. -/
theorem bash_empty_match_fails {α β : Type} (abs : String → String)
    (examples : List α) (link : List α → Except String (List β))
    (generate : List β → List Suite)
    (compileRe : String → Except String (String → Bool)) :
    runCommand abs true "" examples link generate compileRe =
      ([], some "Flag --bash can be used only with flag --match") := rfl

/-- Claim C4 (counterexample): with the bash flag and an empty pattern the run
returns the flag error and writes nothing, even though a suite was available
to render — it does not render every suite and test unfiltered. -/
theorem bash_empty_match_counterexample :
    (runCommand id true "" ([] : List Unit) (fun _ => Except.ok ([()] : List Unit))
        (fun _ => [Suite.mk "d" "loc" "A" [] ["echo x"] [] .nil .nil [] []])
        (fun _ => Except.ok (fun _ => true))).2 ≠ none ∧
    (runCommand id true "" ([] : List Unit) (fun _ => Except.ok ([()] : List Unit))
        (fun _ => [Suite.mk "d" "loc" "A" [] ["echo x"] [] .nil .nil [] []])
        (fun _ => Except.ok (fun _ => true))).1 = [] := by
  decide

/-- Claim C9: whenever linking returns an error, the run aborts with an error
and the write list is empty — no suite artifact is rendered or written. -/
theorem link_error_aborts {α β : Type} (abs : String → String) (bash : Bool)
    (matchFlag : String) (examples : List α)
    (link : List α → Except String (List β)) (generate : List β → List Suite)
    (compileRe : String → Except String (String → Bool))
    (e : String) (h : link examples = Except.error e) :
    (runCommand abs bash matchFlag examples link generate compileRe).1 = [] ∧
    (runCommand abs bash matchFlag examples link generate compileRe).2.isSome = true := by
  unfold runCommand
  cases hb : (bash && (matchFlag == "")) with
  | true => simp [hb]
  | false => simp [hb, h]

theorem link_error_aborts_witness :
    (fun (_ : List Unit) => (Except.error "cycle detected" : Except String (List Unit))) [] =
      Except.error "cycle detected" ∧
    ((@runCommand Unit Unit id false "" []
        (fun _ => Except.error "cycle detected")
        (fun _ => []) (fun _ => Except.ok (fun _ => true))).1 = [] ∧
     (@runCommand Unit Unit id false "" []
        (fun _ => Except.error "cycle detected")
        (fun _ => []) (fun _ => Except.ok (fun _ => true))).2.isSome = true) :=
  ⟨rfl, link_error_aborts id false "" [] _ _ _ "cycle detected" rfl⟩

/-- Claim C7: a suite with zero declared tests renders, in the compiled
format, the template followed by exactly one appended test unit — the empty
placeholder `func (s *Suite) Test() {}` — and the suite model gains exactly
that one fresh empty test. -/
theorem empty_suite_placeholder (s : Suite) (h : s.tests = []) :
    (Suite.render s).1 =
      spaceNormalize (strTrim (Suite.suiteTemplateRender s ++ emptyTestStr)) ∧
    (Suite.render s).2 = s.setTests [Test.mk "" "" [] []] := by
  unfold Suite.render
  rw [h]
  constructor
  · simp [Test.renderGo, strConcat, emptyTestStr]
  · rfl

def c7suite : Suite := Suite.mk "d7" "loc7" "pkg" [] [] [] .nil .nil [] []

theorem empty_suite_placeholder_witness :
    c7suite.tests = [] ∧
    ((Suite.render c7suite).1 =
       spaceNormalize (strTrim (Suite.suiteTemplateRender c7suite ++ emptyTestStr)) ∧
     (Suite.render c7suite).2 = c7suite.setTests [Test.mk "" "" [] []]) :=
  ⟨rfl, empty_suite_placeholder c7suite rfl⟩

/-- Claim C8 (amended): compiled-format suite rendering is output-idempotent —
rendering again on the possibly-updated suite yields byte-identical output
and no further model change (the only model change ever made is adding the
placeholder test to a test-less suite on the first rendering). -/
theorem go_render_idempotent (s : Suite) :
    (Suite.render (Suite.render s).2).1 = (Suite.render s).1 ∧
    (Suite.render (Suite.render s).2).2 = (Suite.render s).2 := by
  cases s with
  | mk d l n c r t ch p dp dts =>
    cases t with
    | nil => exact ⟨rfl, rfl⟩
    | cons x xs => exact ⟨rfl, rfl⟩

/-- Claim C8 (counterexample): the shell-script test rendering is not a pure
function of the model — it appends a `cd` command to the test's `Run` body,
so it both mutates the test and produces different output when rendered a
second time on the unchanged-by-the-user input. -/
theorem test_bash_render_not_pure :
    (Test.bashRender id (Test.bashRender id (Test.mk "d" "T" [] ["echo hi"])).2).1 ≠
      (Test.bashRender id (Test.mk "d" "T" [] ["echo hi"])).1 ∧
    (Test.bashRender id (Test.mk "d" "T" [] ["echo hi"])).2 ≠
      Test.mk "d" "T" [] ["echo hi"] := by
  decide

/-- Claim C5: in script mode, if the pattern matches no suite name and no test
name anywhere, `processBashSuites` returns the no-matches error and the write
list is empty; if at least one suite or test matches, no error is returned. -/
theorem no_match_error_iff (abs : String → String) (pattern : String)
    (matchName : String → Bool) (suites : List Suite) :
    ((∀ s ∈ suites, matchName s.name = false ∧ ∀ t ∈ s.tests, matchName t.name = false) →
      processBashSuites abs pattern matchName suites =
        ([], some ("No matches found for pattern: " ++ pattern))) ∧
    ((∃ s ∈ suites, matchName s.name = true ∨ ∃ t ∈ s.tests, matchName t.name = true) →
      (processBashSuites abs pattern matchName suites).2 = none) := by
  constructor
  · intro h
    have hf1 : suites.any (fun s => matchName s.name) = false := by
      simp only [List.any_eq_false]
      intro s hs
      simp [(h s hs).1]
    have hw1 : suites.filterMap (fun s =>
        bif matchName s.name then
          some (s.location, Suite.bashString abs (s.setTests [])) else none) = [] := by
      simp only [List.filterMap_eq_nil_iff]
      intro s hs
      simp [(h s hs).1]
    have hf2 : (suites.map (fun s => bif matchName s.name then s.setTests [] else s)).any
        (fun s => s.tests.any (fun t => matchName t.name)) = false := by
      simp only [List.any_eq_false]
      intro s' hs'
      obtain ⟨s, hs, rfl⟩ := List.mem_map.mp hs'
      simp only [(h s hs).1, cond_false]
      intro hany
      obtain ⟨t, ht, htm⟩ := List.any_eq_true.mp hany
      exact absurd htm (by simp [(h s hs).2 t ht])
    have hw2 : (suites.map (fun s => bif matchName s.name then s.setTests [] else s)).filterMap
        (fun s =>
          let mt := s.tests.filter (fun t => matchName t.name)
          bif mt.isEmpty then none
          else some (s.location, Suite.bashString abs (s.setTests mt))) = [] := by
      simp only [List.filterMap_eq_nil_iff]
      intro s' hs'
      obtain ⟨s, hs, rfl⟩ := List.mem_map.mp hs'
      simp only [(h s hs).1, cond_false]
      have hfil : s.tests.filter (fun t => matchName t.name) = [] :=
        List.filter_eq_nil_iff.mpr (fun t ht => by simp [(h s hs).2 t ht])
      simp [hfil]
    simp only [processBashSuites, hf1, hw1, hf2, hw2]
    simp
  · rintro ⟨s, hs, hcase⟩
    have hfound : (suites.any (fun s => matchName s.name) ||
        (suites.map (fun s => bif matchName s.name then s.setTests [] else s)).any
          (fun s => s.tests.any (fun t => matchName t.name))) = true := by
      rcases hcase with hname | ⟨t, ht, htm⟩
      · exact Bool.or_eq_true_iff.mpr (Or.inl (List.any_eq_true.mpr ⟨s, hs, hname⟩))
      · by_cases hn : matchName s.name = true
        · exact Bool.or_eq_true_iff.mpr (Or.inl (List.any_eq_true.mpr ⟨s, hs, hn⟩))
        · have hnf : matchName s.name = false := Bool.eq_false_iff.mpr hn
          refine Bool.or_eq_true_iff.mpr (Or.inr (List.any_eq_true.mpr ⟨s, ?_, ?_⟩))
          · exact List.mem_map.mpr ⟨s, hs, by simp [hnf]⟩
          · exact List.any_eq_true.mpr ⟨t, ht, htm⟩
    simp only [processBashSuites, hfound]
    simp

def c5suite : Suite :=
  Suite.mk "d5" "loc5" "SuiteA" [] ["echo s"]
    [Test.mk "d5" "TestOne" [] ["echo t"]] .nil .nil [] []

theorem no_match_error_iff_witness :
    processBashSuites id "Nope" (fun n => n == "Nope") [c5suite] =
      ([], some ("No matches found for pattern: " ++ "Nope")) ∧
    (processBashSuites id "TestOne" (fun n => n == "TestOne") [c5suite]).2 = none :=
  ⟨(no_match_error_iff id "Nope" (fun n => n == "Nope") [c5suite]).1 (by decide),
   (no_match_error_iff id "TestOne" (fun n => n == "TestOne") [c5suite]).2
     ⟨c5suite, by simp,
      Or.inr ⟨Test.mk "d5" "TestOne" [] ["echo t"], by decide, by decide⟩⟩⟩

/-- Claim C1 (amended): in shell-script rendering with a selection pattern, a
suite whose name matches is written with its test list cleared, a suite whose
name does not match but which contains matching tests is written with its
test list restricted to the matching subset — and the suite-level shell
rendering reads only the flattened setup/cleanup chains, so no test appears
in either output. -/
theorem bash_selection_filter (abs : String → String) (pattern : String)
    (matchName : String → Bool) (suites : List Suite) :
    (∀ s ∈ suites, matchName s.name = true →
      (s.location, Suite.bashString abs (s.setTests [])) ∈
        (processBashSuites abs pattern matchName suites).1) ∧
    (∀ s ∈ suites, matchName s.name = false →
      s.tests.filter (fun t => matchName t.name) ≠ [] →
      (s.location,
        Suite.bashString abs (s.setTests (s.tests.filter (fun t => matchName t.name)))) ∈
        (processBashSuites abs pattern matchName suites).1) ∧
    (∀ (s : Suite) (ts : List Test),
      Suite.bashString abs (s.setTests ts) = Suite.bashString abs s) := by
  refine ⟨?_, ?_, ?_⟩
  · intro s hs hm
    simp only [processBashSuites, List.mem_append]
    left
    exact List.mem_filterMap.mpr ⟨s, hs, by simp [hm]⟩
  · intro s hs hm hne
    simp only [processBashSuites, List.mem_append]
    right
    refine List.mem_filterMap.mpr ⟨s, List.mem_map.mpr ⟨s, hs, by simp [hm]⟩, ?_⟩
    have hemp : (s.tests.filter (fun t => matchName t.name)).isEmpty = false := by
      cases hfil : s.tests.filter (fun t => matchName t.name) with
      | nil => exact absurd hfil hne
      | cons a as => rfl
    simp [hemp]
  · intro s ts
    cases s
    rfl

def matchA : String → Bool := fun n => n == "Alpha" || n == "AlphaT"

def c1suiteA : Suite :=
  Suite.mk "da" "la" "Alpha" [] ["echo a"] [Test.mk "da" "T1" [] ["t1"]] .nil .nil [] []

def c1suiteB : Suite :=
  Suite.mk "db" "lb" "Beta" [] ["echo b"] [Test.mk "db" "AlphaT" [] ["t3"]] .nil .nil [] []

theorem bash_selection_filter_witness :
    matchA c1suiteA.name = true ∧ matchA c1suiteB.name = false ∧
    c1suiteB.tests.filter (fun t => matchA t.name) ≠ [] ∧
    ((c1suiteA.location, Suite.bashString id (c1suiteA.setTests [])) ∈
       (processBashSuites id "Alpha" matchA [c1suiteA, c1suiteB]).1 ∧
     (c1suiteB.location,
       Suite.bashString id
         (c1suiteB.setTests (c1suiteB.tests.filter (fun t => matchA t.name)))) ∈
       (processBashSuites id "Alpha" matchA [c1suiteA, c1suiteB]).1) :=
  ⟨rfl, rfl, by decide,
   (bash_selection_filter id "Alpha" matchA [c1suiteA, c1suiteB]).1 c1suiteA (by simp) rfl,
   (bash_selection_filter id "Alpha" matchA [c1suiteA, c1suiteB]).2.1 c1suiteB (by simp) rfl
     (by decide)⟩

def c1xSuite : Suite :=
  Suite.mk "dx" "lx" "A" [] ["echo setupA"]
    [Test.mk "dx" "T1" [] ["echo t1"], Test.mk "dx" "T2" [] ["echo t2"]] .nil .nil [] []

set_option maxRecDepth 100000 in
/-- Claim C1 (counterexample): suite `A` matches the pattern `A`; the only
file written for it is its shell rendering with the tests cleared, which
contains the suite's own setup command but neither test `T1`'s command nor
even the name `T1` — the matching suite is not rendered with all its tests. -/
theorem bash_matching_suite_loses_tests :
    (processBashSuites id "A" (fun n => n == "A") [c1xSuite]).1 =
      [("lx", Suite.bashString id (c1xSuite.setTests []))] ∧
    StrContains (Suite.bashString id (c1xSuite.setTests [])) "echo setupA" ∧
    ¬ StrContains (Suite.bashString id (c1xSuite.setTests [])) "echo t1" ∧
    ¬ StrContains (Suite.bashString id (c1xSuite.setTests [])) "T1" := by
  decide
